import Mathlib

set_option maxRecDepth 8000

/-!
Verification of the DesignForge agent conversation controller core.

This development is a shallow embedding of the repository's core logic
(packages/core/src/agent.ts and packages/core/src/file-writer.ts) in Lean 4.
JavaScript strings are modelled by `String` (with all primitive operations
re-expressed structurally over `String.data`, i.e. `List Char`, so that every
definition is executable and reducible by the kernel); JavaScript `Map`/`Set`
are modelled by insertion-ordered association lists / duplicate-free lists with
the exact `get`/`set`/`has`/`add` behaviour used by the source; thrown
exceptions are modelled by `Except`.
-/

namespace DesignForge

/-! ## Character-level helpers (models of JavaScript string primitives) -/

/-- Word character class of the JavaScript regex token for words:
ASCII letters, digits and underscore. -/
def isWordChar (c : Char) : Bool := c.isAlphanum || c == '_'

/-- Horizontal whitespace, the `[ \t]` character class. -/
def isSpaceTab (c : Char) : Bool := c == ' ' || c == '\t'

/-- Model of JavaScript `s.slice(0, n)` (also `String.take`), defined
structurally over the character list so it reduces in the kernel. -/
def strTake (s : String) (n : Nat) : String := String.mk (s.data.take n)

/-- Model of JavaScript `s.trim()`: strip leading and trailing whitespace. -/
def strTrim (s : String) : String :=
  String.mk (((s.data.dropWhile Char.isWhitespace).reverse.dropWhile Char.isWhitespace).reverse)

/-- Model of JavaScript `s.trimEnd()`: strip trailing whitespace. -/
def strTrimEnd (s : String) : String :=
  String.mk ((s.data.reverse.dropWhile Char.isWhitespace).reverse)

/-- Split a character list at every occurrence of a separator character,
keeping empty segments, like JavaScript `s.split(sep)` for a one-character
separator. -/
def splitOnCharList (sep : Char) : List Char → List (List Char)
  | [] => [[]]
  | c :: cs =>
    let r := splitOnCharList sep cs
    if c == sep then [] :: r
    else
      match r with
      | [] => [[c]]
      | h :: t => (c :: h) :: t

/-- Model of JavaScript `text.split('\n')`. -/
def splitLines (s : String) : List String := (splitOnCharList '\n' s.data).map String.mk

/-! ## Context Budget Manager: per-result cap (agent.ts, `capToolResult`)

Source (agent.ts lines 168-186): results at or under
`MAX_TOOL_RESULT_CHARS = 6000` characters pass through unchanged; longer
results are truncated to the first 6000 characters and a notice stating the
original length is appended. -/

def MAX_TOOL_RESULT_CHARS : Nat := 6000

/-- The notice appended to a truncated tool result (agent.ts lines 183-185). -/
def truncationNotice (originalLen : Nat) : String :=
  "\n\n[TRUNCATED — full response was " ++ Nat.repr originalLen ++
    " characters. " ++ "The key information is above. Proceed to the next phase of the workflow.]"

/-- Model of `DesignForgeAgent.capToolResult` (agent.ts lines 177-186). -/
def capToolResult (result : String) : String :=
  if result.length ≤ MAX_TOOL_RESULT_CHARS then result
  else strTake result MAX_TOOL_RESULT_CHARS ++ truncationNotice result.length

/-! ## Conversation history model

A history message (`Anthropic.MessageParam`) has a role and a content that is
either a plain string or an array of content blocks.  The agent only ever
observes three block shapes: text blocks (string `text` field), tool-use
blocks (no string `text`/`content` field, measured via their JSON
serialization) and tool-result blocks (string `content` field). -/

inductive Role
  | user
  | assistant
  deriving DecidableEq, Repr

inductive HistBlock
  | text (s : String)
  | toolUse (id name input : String)
  | toolResult (id content : String)
  deriving DecidableEq, Repr

inductive MsgContent
  | str (s : String)
  | blocks (bs : List HistBlock)
  deriving DecidableEq, Repr

structure Msg where
  role : Role
  content : MsgContent
  deriving DecidableEq, Repr

/-- Minimal model of the JSON string escaping performed by
`JSON.stringify`; the history-trim claims are independent of the exact
serialized sizes, only the code's branching structure matters. -/
def jsonEscape (s : String) : String :=
  String.mk ((s.data.map fun c =>
    if c == '"' then ['\\', '"']
    else if c == '\\' then ['\\', '\\']
    else if c == '\n' then ['\\', 'n']
    else [c]).flatten)

/-- JSON serialization of one content block, as `JSON.stringify(block)`
would produce it (`input` is carried in already-serialized form). -/
def serializeHistBlock : HistBlock → String
  | .text s => "\x7b\"type\":\"text\",\"text\":\"" ++ jsonEscape s ++ "\"\x7d"
  | .toolUse i n inp =>
      "\x7b\"type\":\"tool_use\",\"id\":\"" ++ jsonEscape i ++ "\",\"name\":\"" ++
        jsonEscape n ++ "\",\"input\":" ++ inp ++ "\x7d"
  | .toolResult i c =>
      "\x7b\"type\":\"tool_result\",\"tool_use_id\":\"" ++ jsonEscape i ++
        "\",\"content\":\"" ++ jsonEscape c ++ "\"\x7d"

/-- JSON serialization of a whole block-array content,
`JSON.stringify(msg.content)`. -/
def serializeContent (bs : List HistBlock) : String :=
  "[" ++ String.intercalate "," (bs.map serializeHistBlock) ++ "]"

/-- Per-block size estimate used by `estimateHistoryChars`
(agent.ts lines 788-796): a string `text` field counts its length, else a
string `content` field counts its length, else the serialized block size. -/
def estimateBlockChars (b : HistBlock) : Nat :=
  match b with
  | .text s => s.length
  | .toolResult _ c => c.length
  | .toolUse _ _ _ => (serializeHistBlock b).length

/-- Per-message size estimate of `estimateHistoryChars`: string content
counts its length, block-array content sums the per-block estimates. -/
def estimateMsgChars (msg : Msg) : Nat :=
  match msg.content with
  | .str s => s.length
  | .blocks bs => (bs.map estimateBlockChars).sum

/-- Model of `DesignForgeAgent.estimateHistoryChars` (agent.ts lines 782-801):
the accumulation loop summing the per-message estimates. -/
def estimateHistoryChars : List Msg → Nat
  | [] => 0
  | msg :: rest => estimateMsgChars msg + estimateHistoryChars rest

/-- Per-message size used inside the trim loop (agent.ts lines 827-833):
string content counts its length, anything else the length of
`JSON.stringify(msg.content)`. -/
def msgDropChars (m : Msg) : Nat :=
  match m.content with
  | .str s => s.length
  | .blocks bs => (serializeContent bs).length

def MAX_HISTORY_CHARS : Nat := 100000

/-- The `while` loop of `trimConversationHistory` (agent.ts lines 826-834):
walk forward through the candidate messages (`rest` limited by
`dropCount < rest.length - 2`), subtracting sizes while still over budget,
and return the resulting drop count. -/
def trimDropLoop (trimmedChars : Int) : List Msg → Nat
  | [] => 0
  | m :: ms =>
    if trimmedChars > (MAX_HISTORY_CHARS : Int) then
      trimDropLoop (trimmedChars - msgDropChars m) ms + 1
    else 0

/-- The final drop count of `trimConversationHistory`: the loop's count,
extended by one when odd to keep the alternating pattern
(agent.ts lines 824-837). -/
def trimDropCount (chars : Nat) (rest : List Msg) : Nat :=
  if trimDropLoop (chars : Int) (rest.take (rest.length - 2)) % 2 ≠ 0 then
    trimDropLoop (chars : Int) (rest.take (rest.length - 2)) + 1
  else trimDropLoop (chars : Int) (rest.take (rest.length - 2))

/-- Model of `DesignForgeAgent.trimConversationHistory`
(agent.ts lines 811-843). -/
def trimConversationHistory (history : List Msg) : List Msg :=
  if estimateHistoryChars history ≤ MAX_HISTORY_CHARS then history
  else
    match history with
    | [] => history
    | firstMessage :: rest =>
      if 0 < trimDropCount (estimateHistoryChars history) rest then
        firstMessage :: rest.drop (trimDropCount (estimateHistoryChars history) rest)
      else history

/-- Four-message history whose first message alone exceeds the global
history cap; used to exercise the parity extension of the trim loop. -/
def exBigMsg : Msg := ⟨Role.user, MsgContent.str (String.mk (List.replicate 100001 'a'))⟩

def exMsgA : Msg := ⟨Role.assistant, MsgContent.str "a1"⟩

def exMsgB : Msg := ⟨Role.user, MsgContent.str "u2"⟩

def exMsgC : Msg := ⟨Role.assistant, MsgContent.str "a3"⟩

def exTrimHistory : List Msg := [exBigMsg, exMsgA, exMsgB, exMsgC]

/-! ## Generic models of JavaScript Map and Set operations -/

/-- JavaScript `Map.prototype.get`: the value stored under the first
matching key, if any. -/
def mapGet {β : Type} (m : List (String × β)) (k : String) : Option β :=
  (m.find? fun p => p.1 == k).map fun p => p.2

/-- JavaScript `Map.prototype.set`: replace the value in place if the key
is present, otherwise append a new entry (insertion order preserved). -/
def mapSet {β : Type} (m : List (String × β)) (k : String) (v : β) : List (String × β) :=
  if (m.find? fun p => p.1 == k).isSome then
    m.map fun p => if p.1 == k then (k, v) else p
  else m ++ [(k, v)]

/-- JavaScript `Set.prototype.add`: append if not already present. -/
def setAdd (s : List String) (x : String) : List String :=
  if s.contains x then s else s ++ [x]

/-- Bool test for one string occurring inside another
(JavaScript `String.prototype.includes`), char-list based. -/
def listInfix (pat : List Char) : List Char → Bool
  | [] => pat.isPrefixOf []
  | c :: t => pat.isPrefixOf (c :: t) || listInfix pat t

def strIncludes (s sub : String) : Bool := listInfix sub.data s.data

/-- Model of JavaScript `s.toLowerCase()` (ASCII-relevant part). -/
def strToLower (s : String) : String := String.mk (s.data.map Char.toLower)

/-- JavaScript `Array.prototype.join(sep)`. -/
def strIntercalate (sep : String) : List String → String
  | [] => ""
  | [s] => s
  | s :: rest => s ++ sep ++ strIntercalate sep rest

/-! ## Tool Bridge tools and the tools array offered to the model -/

/-- A tool descriptor discovered through the MCP bridge
(mcp-bridge.ts `McpTool`): name, owning server, optional description.
The parameter schema is not modelled — no claim concerns schema payloads,
only which tool names are offered. -/
structure McpTool where
  name : String
  serverName : String
  description : Option String
  deriving DecidableEq, Repr

/-- One entry of the tools array passed to the model
(`Anthropic.Messages.Tool`), reduced to the observable fields. -/
structure OfferedTool where
  name : String
  description : String
  deriving DecidableEq, Repr

/-- The two hardcoded fallback mock tools (agent.ts lines 457-496), used
for dev/test mode when no MCP bridge is connected or no discovered tools
remain after filtering. -/
def fallbackTools : List OfferedTool :=
  [⟨"figma",
    "Extract design specifications from Figma files including components, variants, design tokens, and interactions"⟩,
   ⟨"design-system",
    "Query the design system for available components, their props, usage patterns, and examples"⟩]

/-- Model of `DesignForgeAgent.buildTools` (agent.ts lines 433-497).
`bridgeTools = some ts` models a connected bridge whose discovered tools
are `ts`; `none` models `this.mcpBridge = null`. -/
def buildTools (bridgeTools : Option (List McpTool)) (blockedTools : List String) :
    List OfferedTool :=
  match bridgeTools with
  | some ts =>
    let mcpTools :=
      if blockedTools.length > 0 then ts.filter fun t => !(blockedTools.contains t.name)
      else ts
    if mcpTools.length > 0 then
      mcpTools.map fun t =>
        ⟨t.name,
          match t.description with
          | some d => if d = "" then "Tool from " ++ t.serverName else d
          | none => "Tool from " ++ t.serverName⟩
    else fallbackTools
  | none => fallbackTools

/-! ## Loop-Breaker / Duplicate Detector state and per-request processing -/

/-- The mutable per-run state of `executeLoop` that the tool phase reads
and writes (agent.ts lines 192-213): the duplicate-call cache, the
consecutive-duplicate counters, the blocked-tool set, the used tool
categories, and the conversation history. -/
structure LoopState where
  previousToolCalls : List (String × String)
  consecutiveDuplicates : List (String × Nat)
  blockedTools : List String
  calledToolCategories : List String
  history : List Msg
  deriving DecidableEq, Repr

/-- One tool-invocation request block of a model response
(`Anthropic.Messages.ToolUseBlock`); `input` carries the arguments in
already-JSON-serialized form, exactly as the cache key builder uses them. -/
structure ToolUse where
  id : String
  name : String
  input : String
  deriving DecidableEq, Repr

/-- One content block of a model response. -/
inductive RespBlock
  | text (s : String)
  | toolUse (tu : ToolUse)
  deriving DecidableEq, Repr

/-- A response content block as committed to history. -/
def respBlockToHist : RespBlock → HistBlock
  | .text s => HistBlock.text s
  | .toolUse tu => HistBlock.toolUse tu.id tu.name tu.input

/-- The text segments of a response, in order (agent.ts lines 249-261). -/
def respTextParts (resp : List RespBlock) : List String :=
  resp.filterMap fun b => match b with | .text s => some s | _ => none

/-- `textContent.join('\n')` (agent.ts line 263). -/
def respFullText (resp : List RespBlock) : String :=
  strIntercalate "\n" (respTextParts resp)

/-- The tool-invocation request blocks of a response (agent.ts lines 303-306). -/
def respToolUses (resp : List RespBlock) : List ToolUse :=
  resp.filterMap fun b => match b with | .toolUse tu => some tu | _ => none

def MAX_CONSECUTIVE_DUPLICATES : Nat := 2

/-- The directive returned in place of re-invoking a duplicated call
(agent.ts lines 377-381): an explicit do-not-repeat notice plus a
500-character excerpt of the cached result. -/
def duplicateCallNotice (toolName cached : String) : String :=
  "[DUPLICATE CALL — you already called \"" ++ toolName ++ "\" with these exact parameters " ++
    "on a previous turn and received the data. DO NOT call this tool again. " ++
    "Use the data you already have and proceed to the next phase of the workflow.]\n\n" ++
    "Previous result summary (first 500 chars):\n" ++ strTake cached 500 ++ "..."

/-- Model of `DesignForgeAgent.simulateToolResult` (agent.ts lines 881-950):
the mock tool results used when no MCP bridge is configured, as the compact
`JSON.stringify` of the source object literals. -/
def simulateToolResult (toolName : String) (input : String) : String :=
  if toolName == "figma" then
    "\x7b\"success\":true,\"design\":\x7b\"name\":\"User Settings Page\",\"components\":[\x7b\"name\":\"SettingsHeader\",\"type\":\"Header\",\"children\":[\"Avatar\",\"UserName\",\"StatusBadge\"]\x7d,\x7b\"name\":\"SettingsForm\",\"type\":\"Form\",\"fields\":[\"EmailInput\",\"PasswordInput\",\"PreferenceToggle\"]\x7d],\"tokens\":\x7b\"colors\":\x7b\"primary\":\"#6366f1\",\"secondary\":\"#8b5cf6\",\"error\":\"#ef4444\"\x7d,\"spacing\":\x7b\"xs\":\"4px\",\"sm\":\"8px\",\"md\":\"16px\",\"lg\":\"24px\"\x7d\x7d,\"variants\":[\x7b\"component\":\"Button\",\"variants\":[\"primary\",\"secondary\",\"error\"]\x7d]\x7d\x7d"
  else if toolName == "design-system" then
    "\x7b\"success\":true,\"components\":[\x7b\"name\":\"Button\",\"package\":\"@dtsl/react\",\"props\":[\"variant\",\"size\",\"disabled\",\"onClick\",\"children\"],\"variants\":[\"primary\",\"secondary\",\"ghost\",\"error\"],\"example\":\"<Button variant=\\\"primary\\\" onClick=\x7bhandleClick\x7d>Click me</Button>\"\x7d,\x7b\"name\":\"Input\",\"package\":\"@dtsl/react\",\"props\":[\"type\",\"value\",\"onChange\",\"placeholder\",\"error\",\"disabled\"],\"example\":\"<Input type=\\\"email\\\" value=\x7bemail\x7d onChange=\x7bsetEmail\x7d />\"\x7d,\x7b\"name\":\"Toggle\",\"package\":\"@dtsl/react\",\"props\":[\"checked\",\"onChange\",\"label\",\"disabled\"],\"example\":\"<Toggle checked=\x7benabled\x7d onChange=\x7bsetEnabled\x7d label=\\\"Enable feature\\\" />\"\x7d]\x7d"
  else "\x7b\"success\":true,\"data\":\x7b\x7d\x7d"

/-- The underlying execution of a fresh tool request: the MCP bridge when
connected, else the mock layer (agent.ts lines 386-391). -/
def rawToolResult (bridgeTools : Option (List McpTool))
    (callTool : String → String → String) (tu : ToolUse) : String :=
  match bridgeTools with
  | some _ => callTool tu.name tu.input
  | none => simulateToolResult tu.name tu.input

/-- The tool-category tracking of the tool phase (agent.ts lines 397-399):
look the requested name up among the discovered bridge tools and record the
owning server name (when non-empty) as a used category. -/
def trackCategoryFound : Option McpTool → LoopState → LoopState
  | none, st1 => st1
  | some t, st1 =>
    if t.serverName ≠ "" then
      { st1 with calledToolCategories := setAdd st1.calledToolCategories t.serverName }
    else st1

def trackCategory : Option (List McpTool) → String → LoopState → LoopState
  | none, _, st1 => st1
  | some ts, tuName, st1 => trackCategoryFound (ts.find? fun t => t.name == tuName) st1

/-- The outcome of processing one tool-invocation request: the updated
loop state, the tool-result block produced for history, and how many times
the underlying provider (or mock layer) was actually executed (0 or 1). -/
structure ToolUseOutcome where
  state : LoopState
  block : HistBlock
  invocations : Nat
  deriving Repr

/-- Model of the per-request body of the tool phase of `executeLoop`
(agent.ts lines 358-406): duplicate detection against the call cache,
consecutive-duplicate counting with threshold blocking, execution and
caching of fresh calls, and tool-category tracking. -/
def processToolUse (bridgeTools : Option (List McpTool))
    (callTool : String → String → String) (st : LoopState) (tu : ToolUse) : ToolUseOutcome :=
  let callKey := tu.name ++ ":" ++ tu.input
  let afterCall : LoopState × String × Nat :=
    match mapGet st.previousToolCalls callKey with
    | some cached =>
      let dupCount := (mapGet st.consecutiveDuplicates tu.name).getD 0 + 1
      let cd := mapSet st.consecutiveDuplicates tu.name dupCount
      let blocked :=
        if MAX_CONSECUTIVE_DUPLICATES ≤ dupCount then setAdd st.blockedTools tu.name
        else st.blockedTools
      ({ st with consecutiveDuplicates := cd, blockedTools := blocked },
        duplicateCallNotice tu.name cached, 0)
    | none =>
      let cd := mapSet st.consecutiveDuplicates tu.name 0
      let resultContent := capToolResult (rawToolResult bridgeTools callTool tu)
      ({ st with
          consecutiveDuplicates := cd
          previousToolCalls := st.previousToolCalls ++ [(callKey, resultContent)] },
        resultContent, 1)
  ⟨trackCategory bridgeTools tu.name afterCall.1,
    HistBlock.toolResult tu.id afterCall.2.1, afterCall.2.2⟩

/-- Sequential processing of a turn's batch of tool requests, collecting
the result blocks in order and counting underlying executions.  (The
source dispatches the batch through `Promise.all`; the claims proved about
it concern requests arriving on separate turns, for which this
serialization is exact.) -/
def processToolUses (bridgeTools : Option (List McpTool))
    (callTool : String → String → String) :
    LoopState → List ToolUse → LoopState × List HistBlock × Nat
  | st, [] => (st, [], 0)
  | st, tu :: rest =>
    let o := processToolUse bridgeTools callTool st tu
    let r := processToolUses bridgeTools callTool o.state rest
    (r.1, o.block :: r.2.1, o.invocations + r.2.2)

/-! ## Conversation Controller: completion, guidance, escalation, turn step -/

def completionIndicators : List String :=
  ["workflow complete", "implementation finished", "all phases completed",
   "designforge complete", "execution complete"]

/-- Model of `DesignForgeAgent.isWorkflowComplete` (agent.ts lines 845-856);
the `stopReason` parameter is accepted and ignored exactly as in the source. -/
def isWorkflowComplete (text : String) (stopReason : Option String) : Bool :=
  completionIndicators.any fun indicator => strIncludes (strToLower text) indicator

/-- The synthetic responder turn spliced in by the escalation rewrite
(agent.ts lines 328-331). -/
def syntheticAssistantText : String :=
  "Phase 1 is complete. I have analyzed the Figma design and extracted the specifications. Now I will proceed to Phase 2: mapping components to the Naos design system."

/-- The cached-data summary embedded in the synthetic originator turn
(agent.ts lines 323-325): the first cached value's 1500-character excerpt. -/
def figmaDataSummaryText (previousToolCalls : List (String × String)) : String :=
  if previousToolCalls.length > 0 then
    "Here is a summary of the Figma data already fetched:\n" ++
      strTake ((previousToolCalls.headD ("", "")).2) 1500
  else "Figma data was fetched but no summary is available."

/-- The synthetic task-originator turn spliced in by the escalation rewrite
(agent.ts lines 334-342). -/
def syntheticUserText (previousToolCalls : List (String × String)) : String :=
  "Good. Phase 1 (Figma analysis) is done. " ++ figmaDataSummaryText previousToolCalls ++
    "\n\n" ++
    "NOW PROCEED TO PHASE 2. You MUST call one of these Naos design system tools:\n" ++
    "- get_naos_component_docs: to find matching @dtsl/react components\n" ++
    "- get_naos_design_tokens: to get design tokens for styling\n" ++
    "- get_naos_icons: to find available icons\n\n" ++
    "DO NOT call get_figma_data again. Start Phase 2 now."

/-- Model of `DesignForgeAgent.buildPhaseGuidance` (agent.ts lines 692-720). -/
def buildPhaseGuidance (calledCategories : List String) (writtenFiles : List String) : String :=
  if calledCategories.contains "figma" && !(calledCategories.contains "naos") then
    "You have already fetched the Figma design data. DO NOT call get_figma_data again.\n" ++
      "Now proceed to Phase 2: use the Naos design system tools (get_naos_component_docs, get_naos_design_tokens) to map Figma components to @dtsl/react components."
  else if calledCategories.contains "figma" && calledCategories.contains "naos"
      && writtenFiles.length == 0 then
    "You have fetched both Figma data and Naos design system data.\n" ++
      "DO NOT call get_figma_data or get_naos_component_docs again.\n" ++
      "Now proceed to Phase 3: generate the React/TypeScript implementation files using @dtsl/react components.\n" ++
      "Output each file using the code fence format with the file path after the language tag."
  else if writtenFiles.length > 0 then
    "You have generated " ++ Nat.repr writtenFiles.length ++ " files so far.\n" ++
      "Continue generating remaining files (tests, stories, documentation) or say \"WORKFLOW COMPLETE\" if all phases are done."
  else "Continue with the next step in the workflow."

/-- The observable outcome of one loop iteration: the updated state (with
history), the number of underlying tool executions, and whether the
completion heuristic ended the run on this turn. -/
structure TurnResult where
  state : LoopState
  invocations : Nat
  completed : Bool
  deriving Repr

/-- Model of one iteration of `executeLoop` from the point the model
response is received (agent.ts lines 248-421): completion detection, the
all-blocked escalation rewrite, committing the real response, the tool
phase (through `processToolUses`) or the stall-phase guidance.  The
artifact-writing side effect is handled by the writer model
(`writeCodeBlocks`); `writtenFiles` is the written-file list as the
guidance builder observes it. -/
def turnStep (bridgeTools : Option (List McpTool)) (callTool : String → String → String)
    (writtenFiles : List String) (st : LoopState) (resp : List RespBlock)
    (stopReason : Option String) : TurnResult :=
  if isWorkflowComplete (respFullText resp) stopReason then
    ⟨st, 0, true⟩
  else
    let toolUses := respToolUses resp
    let allBlocked := toolUses.length > 0
      && toolUses.all fun tu => st.blockedTools.contains tu.name
    if allBlocked then
      ⟨{ st with history := st.history ++
          [⟨Role.assistant, MsgContent.str syntheticAssistantText⟩,
           ⟨Role.user, MsgContent.str (syntheticUserText st.previousToolCalls)⟩] }, 0, false⟩
    else
      let st1 := { st with history := st.history ++
        [⟨Role.assistant, MsgContent.blocks (resp.map respBlockToHist)⟩] }
      if toolUses.length > 0 then
        let r := processToolUses bridgeTools callTool st1 toolUses
        ⟨{ r.1 with history := r.1.history ++ [⟨Role.user, MsgContent.blocks r.2.1⟩] },
          r.2.2, false⟩
      else
        ⟨{ st1 with history := st1.history ++
            [⟨Role.user, MsgContent.str (buildPhaseGuidance st1.calledToolCategories writtenFiles)⟩] },
          0, false⟩

/-! ## Concrete inputs for the loop-breaker claims -/

def exEmptyState : LoopState := ⟨[], [], [], [], []⟩

def exFigmaToolUse : ToolUse := ⟨"t1", "figma", "\x7b\x7d"⟩

/-- No-op stand-in for the provider call in mock-mode examples (with
`bridgeTools = none` the source never consults the bridge). -/
def exNoBridgeCall : String → String → String := fun _ _ => ""

/-- The loop state after the same mock tool call three times in a row:
one fresh call, then two duplicates, which reaches the blocking threshold. -/
def exBlockedState : LoopState :=
  (processToolUse none exNoBridgeCall
    (processToolUse none exNoBridgeCall
      (processToolUse none exNoBridgeCall exEmptyState exFigmaToolUse).state
      exFigmaToolUse).state
    exFigmaToolUse).state

/-- A response asserting completion while also requesting only a blocked
tool. -/
def exCompleteResp : List RespBlock :=
  [RespBlock.text "WORKFLOW COMPLETE", RespBlock.toolUse ⟨"t9", "get_figma_data", "\x7b\x7d"⟩]

/-- A state in which `get_figma_data` is cached, counted and blocked. -/
def exBlockedFigmaState : LoopState :=
  ⟨[("get_figma_data:\x7b\x7d", "cached figma data")], [("get_figma_data", 2)],
    ["get_figma_data"], [], []⟩


/-! ## Artifact Extractor (file-writer.ts, `parseCodeBlocks`)

The source scans with the regex CODE_FENCE_REGEX (file-writer.ts line 34):
an opening line of three backticks, a word-character language tag, then
horizontal whitespace only (never a newline — the documented pitfall), then
the info string up to the end of the line; the body runs lazily up to the
first subsequent line consisting of exactly three backticks.  Since both
anchors are line-anchored, the scan is modelled over the line list of the
text. -/

/-- A parsed artifact: relative path, content, language tag
(file-writer.ts `ParsedCodeBlock`). -/
structure ParsedCodeBlock where
  filePath : String
  content : String
  language : String
  deriving DecidableEq, Repr

/-- One raw fenced region found by the regex scan: the lines before the
opening fence (for the bounded look-back of strategy 4), the language tag
capture, the info-string capture, and the body lines strictly between the
fences. -/
structure RawBlock where
  pre : List String
  lang : String
  info : String
  body : List String
  deriving DecidableEq, Repr

/-- Match of the opening-fence line: three backticks, then the maximal
word-character run as the language tag, then horizontal whitespace, then
the rest of the line as the info string. -/
def fenceOpen? (l : String) : Option (String × String) :=
  match l.data with
  | '`' :: '`' :: '`' :: rest =>
    some (String.mk (rest.takeWhile isWordChar),
      String.mk ((rest.dropWhile isWordChar).dropWhile isSpaceTab))
  | _ => none

/-- The global regex scan over the line list: an opening-fence line whose
suffix contains a bare closing line matches, with the body being the lines
strictly between; the scan resumes after the closing line.  An opening
line with no later bare closing line cannot match, and then no later line
can either. -/
def scanFences : List String → List String → List RawBlock
  | _, [] => []
  | seen, l :: ls =>
    match fenceOpen? l with
    | none => scanFences (seen ++ [l]) ls
    | some (lang, info) =>
      if ls.contains "```" then
        ⟨seen, lang, info, ls.takeWhile fun x => x != "```"⟩ ::
          scanFences (seen ++ [l] ++ (ls.takeWhile fun x => x != "```") ++ ["```"])
            ((ls.dropWhile fun x => x != "```").tail)
      else []
termination_by _ ls => ls.length
decreasing_by
  all_goals simp_wf
  all_goals
    first
      | omega
      | (have h1 := (List.dropWhile_sublist (fun x => x != "```") (l := ls)).length_le
         have h2 := List.length_tail (ls.dropWhile fun x => x != "```")
         omega)

/-- The regex body capture as a string: every body line followed by its
newline (the capture stops right before the closing fence line). -/
def joinBodyLines : List String → String
  | [] => ""
  | l :: ls => l ++ "\n" ++ joinBodyLines ls

/-- Match of FILENAME_ATTR_REGEX (file-writer.ts line 37) at the start of
the character list: the literal word, whitespace, an equals sign,
whitespace, then a double-quoted non-empty capture. -/
def matchFilenameAttr (cs : List Char) : Option String :=
  if ("filename".data).isPrefixOf cs then
    match (cs.drop 8).dropWhile Char.isWhitespace with
    | '=' :: r2 =>
      match r2.dropWhile Char.isWhitespace with
      | '"' :: r4 =>
        if (r4.takeWhile fun c => c != '"').isEmpty then none
        else if (r4.dropWhile fun c => c != '"').isEmpty then none
        else some (String.mk (r4.takeWhile fun c => c != '"'))
      | _ => none
    | _ => none
  else none

/-- Left-to-right search for the first FILENAME_ATTR_REGEX match. -/
def findFilenameAttr : List Char → Option String
  | [] => none
  | c :: cs =>
    match matchFilenameAttr (c :: cs) with
    | some p => some p
    | none => findFilenameAttr cs

def filenameAttr (s : String) : Option String := findFilenameAttr s.data

/-- The extension alternatives of FILE_EXTENSION_REGEX
(file-writer.ts line 38). -/
def KNOWN_EXTENSIONS : List String :=
  [".tsx", ".ts", ".jsx", ".js", ".css", ".scss", ".less", ".json", ".md",
   ".html", ".yaml", ".yml"]

def strEndsWith (s suffix : String) : Bool :=
  (suffix.data.reverse).isPrefixOf s.data.reverse

/-- FILE_EXTENSION_REGEX: the string ends in a dot followed by one of the
known extensions, matched case-insensitively. -/
def hasKnownExt (s : String) : Bool :=
  KNOWN_EXTENSIONS.any fun ext => strEndsWith (strToLower s) ext

/-- Match of FIRST_LINE_COMMENT_REGEX (file-writer.ts line 39) against one
line: two slashes, optional whitespace, then a capture running to the end
of the line (minus trailing whitespace) that ends in a dot followed by a
non-empty word-character run.  When the stem before that dot would be
empty, the greedy whitespace run backtracks its last character into the
capture (a newline cannot be given back, as the dot metacharacter does not
match it), so the capture starts with that whitespace character. -/
def firstLineComment (line : String) : Option String :=
  match line.data with
  | '/' :: '/' :: rest =>
    let wsRun := rest.takeWhile Char.isWhitespace
    let r := ((rest.dropWhile Char.isWhitespace).reverse.dropWhile Char.isWhitespace).reverse
    let w := (r.reverse.takeWhile isWordChar).reverse
    if r.isEmpty then none
    else if w.isEmpty then none
    else
      match r.reverse.drop w.length with
      | '.' :: stem =>
        if stem.isEmpty then
          match wsRun.getLast? with
          | some wc => if wc = '\n' then none else some (String.mk (wc :: r))
          | none => none
        else some (String.mk r)
      | _ => none
  | _ => none

/-- The tail of PRECEDING_FILE_REGEX (file-writer.ts line 40) after one of
the markers: whitespace, an optional backtick, the capture (no newlines or
backticks) ending in dot plus word run, an optional closing backtick, and
only whitespace to the end of the look-back window.  When the stem before
the dot would be empty, the greedy whitespace run backtracks one
non-newline character into the capture. -/
def matchTailAfterMarker (cs : List Char) : Option String :=
  let wsRun := cs.takeWhile Char.isWhitespace
  let t1 := cs.dropWhile Char.isWhitespace
  let hadTick := match t1 with
    | '`' :: _ => true
    | _ => false
  let t2 := match t1 with
    | '`' :: r => r
    | _ => t1
  let cap0 := t2.takeWhile fun c => c != '\n' && c != '`'
  let rem := t2.drop cap0.length
  let capTrim := (cap0.reverse.dropWhile Char.isWhitespace).reverse
  let w := (capTrim.reverse.takeWhile isWordChar).reverse
  let rem2 :=
    if cap0.length == capTrim.length then
      match rem with
      | '`' :: r => r
      | _ => rem
    else rem
  if w.isEmpty then none
  else if !(rem2.all Char.isWhitespace) then none
  else
    match capTrim.reverse.drop w.length with
    | '.' :: stem =>
      if stem.isEmpty then
        match wsRun.getLast? with
        | some wc => if wc = '\n' || hadTick then none else some (String.mk (wc :: capTrim))
        | none => none
      else some (String.mk capTrim)
    | _ => none

/-- Left-to-right search for the first PRECEDING_FILE_REGEX match
(the alternation tries the bold File label marker, then the heading
marker). -/
def precedingFileSearch : List Char → Option String
  | [] => none
  | c :: cs =>
    if ("**File:**".data).isPrefixOf (c :: cs) then
      match matchTailAfterMarker ((c :: cs).drop 9) with
      | some p => some p
      | none => precedingFileSearch cs
    else if ("###".data).isPrefixOf (c :: cs) then
      match matchTailAfterMarker ((c :: cs).drop 3) with
      | some p => some p
      | none => precedingFileSearch cs
    else precedingFileSearch cs

def precedingFileMatch (s : String) : Option String := precedingFileSearch s.data

/-- JavaScript slice of the last (at most) n characters. -/
def lastChars (n : Nat) (s : String) : String := String.mk (s.data.drop (s.data.length - n))

/-- The 200-character look-back window before the opening fence
(file-writer.ts line 87); when the fence opens the text, the window is
empty. -/
def textBeforeOf (pre : List String) : String :=
  if pre.isEmpty then "" else lastChars 200 (strIntercalate "\n" pre ++ "\n")

/-- The ordered path-resolution strategies of `parseCodeBlocks`
(file-writer.ts lines 60-92): the filename attribute, the info-string
path, the first-line comment (requiring a known extension), then the
preceding context (whose capture is trimmed at assignment). -/
def resolveFilePath (infoString : String) (content : String) (textBefore : String) :
    Option String :=
  match filenameAttr infoString with
  | some p => some p
  | none =>
    if !(strTrim infoString).data.isEmpty && hasKnownExt (strTrim infoString) then
      some (strTrim infoString)
    else
      match firstLineComment (strTrim ((splitLines content).headD "")) with
      | some p =>
        if hasKnownExt p then some p
        else (precedingFileMatch textBefore).map strTrim
      | none => (precedingFileMatch textBefore).map strTrim

/-- The per-region processing of `parseCodeBlocks`
(file-writer.ts lines 51-110): skip whitespace-only bodies, resolve a
path, strip the first body line when it is the filename comment for
exactly the resolved path, and normalize the retained content to one
trailing newline. -/
def processBlock (rb : RawBlock) : Option ParsedCodeBlock :=
  let content := joinBodyLines rb.body
  if (strTrim content).data.isEmpty then none
  else
    match resolveFilePath rb.info content (textBeforeOf rb.pre) with
    | none => none
    | some filePath =>
      let cleanContent :=
        match firstLineComment (strTrim ((splitLines content).headD "")) with
        | some p =>
          if p = filePath then strIntercalate "\n" ((splitLines content).tail) else content
        | none => content
      some ⟨strTrim filePath, strTrimEnd cleanContent ++ "\n", rb.lang⟩

/-- Model of `parseCodeBlocks` (file-writer.ts lines 42-113). -/
def parseCodeBlocks (text : String) : List ParsedCodeBlock :=
  (scanFences [] (splitLines text)).filterMap processBlock

/-! ## File writer and the path-containment check (file-writer.ts 121-148) -/

def strStartsWith (s p : String) : Bool := p.data.isPrefixOf s.data

def splitSlash (s : String) : List String := (splitOnCharList '/' s.data).map String.mk

/-- Posix path normalization as Node `path.resolve` performs it: drop
empty and `.` segments, pop on `..` (clipped at the root). -/
def normalizeSegs (segs : List String) : List String :=
  segs.foldl
    (fun acc seg =>
      if seg = "" || seg = "." then acc
      else if seg = ".." then acc.dropLast
      else acc ++ [seg])
    []

/-- Model of Node `path.resolve(p)` for an absolute `p`. -/
def resolveAbs (p : String) : String :=
  "/" ++ strIntercalate "/" (normalizeSegs (splitSlash p))

/-- Model of Node `path.resolve(base, rel)` for an absolute `base`. -/
def resolvePath (base rel : String) : String :=
  if strStartsWith rel "/" then resolveAbs rel
  else "/" ++ strIntercalate "/" (normalizeSegs (splitSlash base ++ splitSlash rel))

/-- Model of `writeCodeBlocks` (file-writer.ts lines 121-148) for an
absolute output path: resolve each block path against the output path,
skip (without aborting the batch) any resolved path failing the
string-prefix check against the resolved output path, and return the list
of full paths actually written, in order.  The filesystem write itself is
the external effect; the returned list is exactly the written paths. -/
def writeCodeBlocks (blocks : List ParsedCodeBlock) (outputPath : String) : List String :=
  blocks.filterMap fun block =>
    if strStartsWith (resolvePath outputPath block.filePath) (resolveAbs outputPath) then
      some (resolvePath outputPath block.filePath)
    else none

/-- Second definition following the specification words, for comparison
with the code's check: a resolved absolute path stays under the sandbox
root iff the root's normalized segment list is a prefix of the path's
normalized segment list. -/
def isUnderRoot (root resolved : String) : Bool :=
  (normalizeSegs (splitSlash root)).isPrefixOf (normalizeSegs (splitSlash resolved))

/-! ## Pre-fetch phase (agent.ts, `parseFigmaUrl` and `prefetchData`) -/

/-- Search for the first design or file URL segment followed by a
non-empty alphanumeric key capture (the key regex of `parseFigmaUrl`,
agent.ts line 65). -/
def figmaKeySearch : List Char → Option String
  | [] => none
  | c :: cs =>
    if ("/design/".data).isPrefixOf (c :: cs) then
      if ((c :: cs).drop 8).takeWhile Char.isAlphanum ≠ [] then
        some (String.mk (((c :: cs).drop 8).takeWhile Char.isAlphanum))
      else figmaKeySearch cs
    else if ("/file/".data).isPrefixOf (c :: cs) then
      if ((c :: cs).drop 6).takeWhile Char.isAlphanum ≠ [] then
        some (String.mk (((c :: cs).drop 6).takeWhile Char.isAlphanum))
      else figmaKeySearch cs
    else figmaKeySearch cs

/-- Search for the first node-id query parameter introduced by a question
mark or ampersand, with a non-empty capture up to the next ampersand
(the node regex of `parseFigmaUrl`, agent.ts line 71). -/
def nodeIdSearch : List Char → Option String
  | [] => none
  | c :: cs =>
    if (c == '?' || c == '&') && ("node-id=".data).isPrefixOf cs then
      if (cs.drop 8).takeWhile (fun x => x != '&') ≠ [] then
        some (String.mk ((cs.drop 8).takeWhile fun x => x != '&'))
      else nodeIdSearch cs
    else nodeIdSearch cs

/-- Model of `DesignForgeAgent.parseFigmaUrl` (agent.ts lines 63-75); the
thrown error on an unextractable file key is modelled as `Except.error`. -/
def parseFigmaUrl (url : String) : Except String (String × Option String) :=
  match figmaKeySearch url.data with
  | none => Except.error ("Could not extract Figma file key from URL: " ++ url)
  | some fileKey => Except.ok (fileKey, nodeIdSearch url.data)

/-- The MCP bridge as the pre-fetch phase observes it: the discovered tool
names and the (fallible, suspending) invocation. -/
structure BridgeModel where
  tools : List String
  call : String → List (String × String) → Except String String

/-- The arguments object built for the Figma-data pre-fetch
(agent.ts lines 103-104). -/
def figmaArgs (fileKey : String) (nodeId : Option String) : List (String × String) :=
  match nodeId with
  | some nid => [("fileKey", fileKey), ("nodeId", nid)]
  | none => [("fileKey", fileKey)]

/-- One pre-fetch category (the common shape of the three fetch blocks of
`prefetchData`, agent.ts lines 100-136): skip when the tool was not
discovered; on a successful call cap the result at the per-category limit
with a truncation marker; on a thrown call error (the catch branch) leave
the category absent. -/
def prefetchCategory (b : BridgeModel) (toolName : String) (args : List (String × String))
    (cap : Nat) : Option String :=
  if b.tools.contains toolName then
    match b.call toolName args with
    | Except.ok raw =>
      some (if cap < raw.length then strTake raw cap ++ "\n[TRUNCATED]" else raw)
    | Except.error _ => none
  else none

structure PrefetchedContext where
  figmaData : Option String
  naosComponents : Option String
  naosTokens : Option String
  naosIcons : Option String
  deriving DecidableEq, Repr

/-- Model of `DesignForgeAgent.prefetchData` (agent.ts lines 86-139): with
no bridge an empty context; otherwise the Figma URL is parsed first — a
parse failure escapes `prefetchData` uncaught (there is no enclosing
try/catch) and is modelled by `Except.error` — then the three categories
are fetched with caps 8000, 6000 and 4000; the icons category is never
fetched. -/
def prefetchData (bridge : Option BridgeModel) (figmaUrl : String) :
    Except String PrefetchedContext :=
  match bridge with
  | none => Except.ok ⟨none, none, none, none⟩
  | some b =>
    match parseFigmaUrl figmaUrl with
    | Except.error e => Except.error e
    | Except.ok (fileKey, nodeId) =>
      Except.ok
        ⟨prefetchCategory b "get_figma_data" (figmaArgs fileKey nodeId) 8000,
         prefetchCategory b "get_naos_component_docs" [] 6000,
         prefetchCategory b "get_naos_design_tokens" [] 4000,
         none⟩

/-! ## Concrete inputs for the extractor, writer and pre-fetch claims -/

/-- A block whose path resolves by the info-string strategy and whose
first body line is the filename comment for that same path. -/
def exInfoBlock : RawBlock := ⟨[], "tsx", "A.tsx", ["// A.tsx", "const a = 1;"]⟩

/-- A bridge whose every invocation throws. -/
def exFailBridge : BridgeModel :=
  ⟨["get_figma_data", "get_naos_component_docs", "get_naos_design_tokens"],
    fun _ _ => Except.error "network down"⟩

/-- A bridge with the Figma tool discovered and a working invocation. -/
def exOkBridge : BridgeModel := ⟨["get_figma_data"], fun _ _ => Except.ok "figma payload"⟩


end DesignForge


namespace DesignForge

/-! ## General helper lemmas -/

theorem strLength_mk (l : List Char) : (String.mk l).length = l.length := rfl

theorem strTake_length (s : String) (n : Nat) :
    (strTake s n).length = min n s.length := by
  show (s.data.take n).length = min n s.data.length
  simp

theorem estimateHistoryChars_nil : estimateHistoryChars [] = 0 := rfl

theorem estimateHistoryChars_cons (msg : Msg) (rest : List Msg) :
    estimateHistoryChars (msg :: rest) = estimateMsgChars msg + estimateHistoryChars rest := rfl

theorem trimDropLoop_le_length (t : Int) (ms : List Msg) : trimDropLoop t ms ≤ ms.length := by
  induction ms generalizing t with
  | nil => simp [trimDropLoop]
  | cons m ms ih =>
    simp only [trimDropLoop, List.length_cons]
    split
    · exact Nat.succ_le_succ (ih _)
    · exact Nat.zero_le _

theorem trimDropCount_even (chars : Nat) (rest : List Msg) :
    trimDropCount chars rest % 2 = 0 := by
  rw [trimDropCount]
  split
  · omega
  · omega

theorem trimDropCount_lt_of_pos {chars : Nat} {rest : List Msg}
    (h : 0 < trimDropCount chars rest) : trimDropCount chars rest < rest.length := by
  have hloop := trimDropLoop_le_length (chars : Int) (rest.take (rest.length - 2))
  have htk : (rest.take (rest.length - 2)).length ≤ rest.length - 2 := by
    simp [List.length_take]
  rw [trimDropCount] at h ⊢
  split at h
  · rename_i hodd
    rw [if_pos hodd]
    omega
  · rename_i hodd
    rw [if_neg hodd]
    omega

theorem trim_of_le (history : List Msg)
    (hle : estimateHistoryChars history ≤ MAX_HISTORY_CHARS) :
    trimConversationHistory history = history := by
  rw [trimConversationHistory.eq_def, if_pos hle]

theorem trim_cons_over (firstMessage : Msg) (rest : List Msg)
    (hle : ¬ estimateHistoryChars (firstMessage :: rest) ≤ MAX_HISTORY_CHARS) :
    trimConversationHistory (firstMessage :: rest) =
      if 0 < trimDropCount (estimateHistoryChars (firstMessage :: rest)) rest then
        firstMessage ::
          rest.drop (trimDropCount (estimateHistoryChars (firstMessage :: rest)) rest)
      else firstMessage :: rest := by
  rw [trimConversationHistory.eq_def, if_neg hle]

theorem getLast?_cons_of_ne_nil {α : Type} (a : α) {l : List α} (h : l ≠ []) :
    (a :: l).getLast? = l.getLast? := by
  cases l with
  | nil => exact absurd rfl h
  | cons b t => simp [List.getLast?_cons_cons]

theorem getLast?_drop_of_lt {α : Type} {n : Nat} {l : List α} (h : n < l.length) :
    (l.drop n).getLast? = l.getLast? := by
  induction l generalizing n with
  | nil => simp at h
  | cons a t ih =>
    cases n with
    | zero => simp
    | succ m =>
      have hm : m < t.length := by simpa using h
      have ht : t ≠ [] := by
        intro he
        rw [he] at hm
        simp at hm
      rw [List.drop_succ_cons, ih hm, getLast?_cons_of_ne_nil a ht]

/-! ## Claim C5 — per-result cap -/

/-- Claim C5 (amended): results at or under the 6000-character cap pass
through `capToolResult` unchanged; results over the cap are truncated to
exactly the cap and suffixed with the notice stating the original length, so
the capped result's total length is the cap plus the notice length (it
exceeds the bare cap by exactly the notice). -/
theorem capToolResult_spec (result : String) :
    (result.length ≤ 6000 → capToolResult result = result) ∧
    (6000 < result.length →
      capToolResult result = strTake result 6000 ++ truncationNotice result.length ∧
      (capToolResult result).length = 6000 + (truncationNotice result.length).length) := by
  constructor
  · intro h
    have h' : result.length ≤ MAX_TOOL_RESULT_CHARS := h
    rw [capToolResult, if_pos h']
  · intro h
    have h' : ¬ result.length ≤ MAX_TOOL_RESULT_CHARS := by
      simp only [MAX_TOOL_RESULT_CHARS]
      omega
    refine ⟨by rw [capToolResult, if_neg h']; rfl, ?_⟩
    rw [capToolResult, if_neg h', String.length_append, strTake_length]
    have hmin : min MAX_TOOL_RESULT_CHARS result.length = 6000 := by
      simp only [MAX_TOOL_RESULT_CHARS]
      omega
    rw [hmin]

theorem capToolResult_spec_witness :
    capToolResult "short result" = "short result" :=
  (capToolResult_spec "short result").1 (by decide)

/-- Claim C5, counterexample to the claim as stated: for a 6001-character
result, the capped result appended to history is strictly longer than the
6000-character cap — the truncation notice is appended on top of the cap,
not inside it. -/
theorem capToolResult_exceeds_cap :
    6000 < (capToolResult (String.mk (List.replicate 6001 'a'))).length := by
  have hlen : (String.mk (List.replicate 6001 'a')).length = 6001 := by
    rw [strLength_mk, List.length_replicate]
  have h' : ¬ (String.mk (List.replicate 6001 'a')).length ≤ MAX_TOOL_RESULT_CHARS := by
    rw [hlen]
    simp [MAX_TOOL_RESULT_CHARS]
  rw [capToolResult, if_neg h', String.length_append, strTake_length, hlen]
  have hnotice : 0 < (truncationNotice 6001).length := by decide
  simp only [MAX_TOOL_RESULT_CHARS]
  omega

/-! ## Claim C6 — history trim preserves the first turn, removes evenly -/

/-- Claim C6 (confirmed): for every conversation history, the trim
operation preserves the first turn (the head of the trimmed history is the
head of the original history) and the number of turns removed is even. -/
theorem trim_preserves_first_turn_and_even_removal (history : List Msg) :
    (trimConversationHistory history).head? = history.head? ∧
    Even (history.length - (trimConversationHistory history).length) := by
  by_cases hle : estimateHistoryChars history ≤ MAX_HISTORY_CHARS
  · rw [trim_of_le history hle]
    exact ⟨rfl, by simp⟩
  · cases history with
    | nil => exact absurd (Nat.zero_le _) hle
    | cons firstMessage rest =>
      rw [trim_cons_over firstMessage rest hle]
      by_cases hdpos :
          0 < trimDropCount (estimateHistoryChars (firstMessage :: rest)) rest
      · rw [if_pos hdpos]
        refine ⟨rfl, ?_⟩
        rw [Nat.even_iff]
        have heven := trimDropCount_even (estimateHistoryChars (firstMessage :: rest)) rest
        have hlt := trimDropCount_lt_of_pos hdpos
        simp only [List.length_cons, List.length_drop]
        omega
      · rw [if_neg hdpos]
        exact ⟨rfl, by simp⟩

/-! ## Claim C7 — the most recent turn is never trimmed away -/

/-- Claim C7 (amended): the trim operation never removes the most recent
turn — the last message of the trimmed history is the last message of the
original history.  (The odd-drop-count parity extension can, however,
remove the second-most-recent turn; see the counterexample.) -/
theorem trim_preserves_most_recent_turn (history : List Msg) :
    (trimConversationHistory history).getLast? = history.getLast? := by
  by_cases hle : estimateHistoryChars history ≤ MAX_HISTORY_CHARS
  · rw [trim_of_le history hle]
  · cases history with
    | nil => exact absurd (Nat.zero_le _) hle
    | cons firstMessage rest =>
      rw [trim_cons_over firstMessage rest hle]
      by_cases hdpos :
          0 < trimDropCount (estimateHistoryChars (firstMessage :: rest)) rest
      · rw [if_pos hdpos]
        have hdlt := trimDropCount_lt_of_pos hdpos
        have hne : rest.drop (trimDropCount (estimateHistoryChars (firstMessage :: rest)) rest)
            ≠ [] := by
          intro he
          rw [List.drop_eq_nil_iff] at he
          omega
        have hrne : rest ≠ [] := by
          intro he
          rw [he] at hdlt
          simp at hdlt
        rw [getLast?_cons_of_ne_nil firstMessage hne, getLast?_drop_of_lt hdlt,
          getLast?_cons_of_ne_nil firstMessage hrne]
      · rw [if_neg hdpos]

/-- Claim C7, counterexample to the claim as stated: on a four-message
history whose first message alone exceeds the global cap, the drop loop
stops at one candidate (preserving the last two turns), but the parity
extension then removes the second-most-recent turn `exMsgB` as well. -/
theorem trim_drops_second_most_recent_turn :
    trimConversationHistory exTrimHistory = [exBigMsg, exMsgC] ∧
    exMsgB ≠ exBigMsg ∧ exMsgB ≠ exMsgC := by
  have hlist : exTrimHistory = [exBigMsg, exMsgA, exMsgB, exMsgC] := rfl
  have e1 : estimateMsgChars exBigMsg = (String.mk (List.replicate 100001 'a')).length := rfl
  have e2 : (String.mk (List.replicate 100001 'a')).length = 100001 := by
    rw [strLength_mk]
    exact List.length_replicate 100001 'a'
  have eBig : estimateMsgChars exBigMsg = 100001 := e1.trans e2
  have eA : estimateMsgChars exMsgA = 2 := rfl
  have eB : estimateMsgChars exMsgB = 2 := rfl
  have eC : estimateMsgChars exMsgC = 2 := rfl
  have h1 : estimateHistoryChars exTrimHistory = 100007 := by
    rw [hlist, estimateHistoryChars_cons, estimateHistoryChars_cons, estimateHistoryChars_cons,
      estimateHistoryChars_cons, estimateHistoryChars_nil, eBig, eA, eB, eC]
  have hle : ¬ estimateHistoryChars exTrimHistory ≤ MAX_HISTORY_CHARS := by
    rw [h1]
    decide
  have hneB : exMsgB ≠ exBigMsg := by
    intro he
    have hc : MsgContent.str "u2" = MsgContent.str (String.mk (List.replicate 100001 'a')) :=
      congrArg Msg.content he
    have hs : "u2" = String.mk (List.replicate 100001 'a') := by injection hc
    have hl : ("u2").length = (String.mk (List.replicate 100001 'a')).length := by rw [hs]
    rw [e2] at hl
    exact absurd hl (by decide)
  refine ⟨?_, hneB, by decide⟩
  rw [hlist] at hle h1
  rw [hlist, trim_cons_over exBigMsg [exMsgA, exMsgB, exMsgC] hle, h1]
  have hd : trimDropCount 100007 [exMsgA, exMsgB, exMsgC] = 2 := rfl
  rw [hd]
  rfl

/-! ## Helper lemmas for the loop-breaker -/

theorem mapGet_cons {β : Type} (p : String × β) (t : List (String × β)) (k : String) :
    mapGet (p :: t) k = if p.1 == k then some p.2 else mapGet t k := by
  cases hp : (p.1 == k) with
  | true => simp [mapGet, List.find?_cons, hp]
  | false => simp [mapGet, List.find?_cons, hp]

theorem mapGet_append_self {β : Type} (m : List (String × β)) (k : String) (v : β)
    (h : mapGet m k = none) : mapGet (m ++ [(k, v)]) k = some v := by
  induction m with
  | nil => simp [mapGet_cons, mapGet]
  | cons p t ih =>
    rw [mapGet_cons] at h
    rw [List.cons_append, mapGet_cons]
    by_cases hp : p.1 == k
    · rw [if_pos hp] at h
      exact absurd h (by simp)
    · rw [if_neg hp] at h
      rw [if_neg hp]
      exact ih h

theorem setAdd_mem_self (s : List String) (x : String) : x ∈ setAdd s x := by
  rw [setAdd]
  split
  · rename_i h
    exact (List.elem_iff).1 h
  · simp

theorem setAdd_mem_mono (s : List String) (x y : String) (h : y ∈ s) : y ∈ setAdd s x := by
  rw [setAdd]
  split
  · exact h
  · simp [h]

theorem trackCategoryFound_previousToolCalls (o : Option McpTool) (st1 : LoopState) :
    (trackCategoryFound o st1).previousToolCalls = st1.previousToolCalls := by
  cases o with
  | none => rfl
  | some t =>
    rw [trackCategoryFound]
    split <;> rfl

theorem trackCategoryFound_blockedTools (o : Option McpTool) (st1 : LoopState) :
    (trackCategoryFound o st1).blockedTools = st1.blockedTools := by
  cases o with
  | none => rfl
  | some t =>
    rw [trackCategoryFound]
    split <;> rfl

theorem trackCategory_previousToolCalls (bt : Option (List McpTool)) (n : String)
    (st1 : LoopState) : (trackCategory bt n st1).previousToolCalls = st1.previousToolCalls := by
  cases bt with
  | none => rfl
  | some ts => exact trackCategoryFound_previousToolCalls _ _

theorem trackCategory_blockedTools (bt : Option (List McpTool)) (n : String)
    (st1 : LoopState) : (trackCategory bt n st1).blockedTools = st1.blockedTools := by
  cases bt with
  | none => rfl
  | some ts => exact trackCategoryFound_blockedTools _ _

theorem processToolUse_fresh (bridgeTools : Option (List McpTool))
    (callTool : String → String → String) (st : LoopState) (tu : ToolUse)
    (hfresh : mapGet st.previousToolCalls (tu.name ++ ":" ++ tu.input) = none) :
    processToolUse bridgeTools callTool st tu =
      ⟨trackCategory bridgeTools tu.name
        ⟨st.previousToolCalls ++
            [(tu.name ++ ":" ++ tu.input, capToolResult (rawToolResult bridgeTools callTool tu))],
          mapSet st.consecutiveDuplicates tu.name 0, st.blockedTools,
          st.calledToolCategories, st.history⟩,
        HistBlock.toolResult tu.id (capToolResult (rawToolResult bridgeTools callTool tu)), 1⟩ := by
  simp only [processToolUse, hfresh]

theorem processToolUse_dup (bridgeTools : Option (List McpTool))
    (callTool : String → String → String) (st : LoopState) (tu : ToolUse) (cached : String)
    (hdup : mapGet st.previousToolCalls (tu.name ++ ":" ++ tu.input) = some cached) :
    processToolUse bridgeTools callTool st tu =
      ⟨trackCategory bridgeTools tu.name
        ⟨st.previousToolCalls,
          mapSet st.consecutiveDuplicates tu.name
            ((mapGet st.consecutiveDuplicates tu.name).getD 0 + 1),
          (if MAX_CONSECUTIVE_DUPLICATES ≤ (mapGet st.consecutiveDuplicates tu.name).getD 0 + 1
            then setAdd st.blockedTools tu.name else st.blockedTools),
          st.calledToolCategories, st.history⟩,
        HistBlock.toolResult tu.id (duplicateCallNotice tu.name cached), 0⟩ := by
  simp only [processToolUse, hdup]

/-! ## Claim C1 — duplicate calls hit the cache, one provider invocation -/

/-- Claim C1 (confirmed): when a tool request's cache key
(name + ":" + serialized input) is not yet cached, processing it executes
the underlying provider (or mock layer) exactly once and caches the capped
result; processing the byte-identical request again executes the provider
zero times and produces the directive/cached-excerpt tool result instead. -/
theorem duplicate_call_invokes_provider_once (bridgeTools : Option (List McpTool))
    (callTool : String → String → String) (st : LoopState) (tu : ToolUse)
    (hfresh : mapGet st.previousToolCalls (tu.name ++ ":" ++ tu.input) = none) :
    (processToolUse bridgeTools callTool st tu).invocations = 1 ∧
    mapGet (processToolUse bridgeTools callTool st tu).state.previousToolCalls
        (tu.name ++ ":" ++ tu.input) =
      some (capToolResult (rawToolResult bridgeTools callTool tu)) ∧
    (processToolUse bridgeTools callTool
        (processToolUse bridgeTools callTool st tu).state tu).invocations = 0 ∧
    (processToolUse bridgeTools callTool
        (processToolUse bridgeTools callTool st tu).state tu).block =
      HistBlock.toolResult tu.id
        (duplicateCallNotice tu.name (capToolResult (rawToolResult bridgeTools callTool tu))) := by
  have h1 := processToolUse_fresh bridgeTools callTool st tu hfresh
  have hcache : mapGet (processToolUse bridgeTools callTool st tu).state.previousToolCalls
      (tu.name ++ ":" ++ tu.input) =
      some (capToolResult (rawToolResult bridgeTools callTool tu)) := by
    rw [h1]
    rw [trackCategory_previousToolCalls]
    exact mapGet_append_self _ _ _ hfresh
  have h2 := processToolUse_dup bridgeTools callTool
    (processToolUse bridgeTools callTool st tu).state tu
    (capToolResult (rawToolResult bridgeTools callTool tu)) hcache
  exact ⟨by rw [h1], hcache, by rw [h2], by rw [h2]⟩

theorem duplicate_call_invokes_provider_once_witness :
    (processToolUse none exNoBridgeCall exEmptyState exFigmaToolUse).invocations = 1 ∧
    (processToolUse none exNoBridgeCall
        (processToolUse none exNoBridgeCall exEmptyState exFigmaToolUse).state
        exFigmaToolUse).invocations = 0 :=
  ⟨(duplicate_call_invokes_provider_once none exNoBridgeCall exEmptyState exFigmaToolUse rfl).1,
   (duplicate_call_invokes_provider_once none exNoBridgeCall exEmptyState exFigmaToolUse rfl).2.2.1⟩

/-! ## Claim C2 — blocking and the offered tool schema -/

/-- Claim C2 (amended): when a duplicate brings a tool's consecutive
counter to the threshold of 2, the tool name is in the blocked set
afterwards; the blocked set only ever grows across request processing; and
whenever the bridge is connected and at least one discovered tool survives
the blocked filter, every tool offered to the model has an unblocked name.
(In the fallback path — no bridge connected, or every discovered tool
blocked — the hardcoded mock schemas are offered regardless of the blocked
set; see the counterexample.) -/
theorem blocked_tools_spec :
    (∀ (bridgeTools : Option (List McpTool)) (callTool : String → String → String)
        (st : LoopState) (tu : ToolUse) (cached : String),
      mapGet st.previousToolCalls (tu.name ++ ":" ++ tu.input) = some cached →
      MAX_CONSECUTIVE_DUPLICATES ≤ (mapGet st.consecutiveDuplicates tu.name).getD 0 + 1 →
      tu.name ∈ (processToolUse bridgeTools callTool st tu).state.blockedTools) ∧
    (∀ (bridgeTools : Option (List McpTool)) (callTool : String → String → String)
        (st : LoopState) (tu : ToolUse) (x : String),
      x ∈ st.blockedTools → x ∈ (processToolUse bridgeTools callTool st tu).state.blockedTools) ∧
    (∀ (ts : List McpTool) (blocked : List String),
      (ts.filter fun t => !(blocked.contains t.name)) ≠ [] →
      ∀ t ∈ buildTools (some ts) blocked, t.name ∉ blocked) := by
  refine ⟨?_, ?_, ?_⟩
  · intro bridgeTools callTool st tu cached hdup hthr
    rw [processToolUse_dup bridgeTools callTool st tu cached hdup,
      trackCategory_blockedTools]
    simp only [if_pos hthr]
    exact setAdd_mem_self _ _
  · intro bridgeTools callTool st tu x hx
    cases hm : mapGet st.previousToolCalls (tu.name ++ ":" ++ tu.input) with
    | none =>
      rw [processToolUse_fresh bridgeTools callTool st tu hm, trackCategory_blockedTools]
      exact hx
    | some cached =>
      rw [processToolUse_dup bridgeTools callTool st tu cached hm, trackCategory_blockedTools]
      split
      · exact setAdd_mem_mono _ _ _ hx
      · exact hx
  · intro ts blocked hne t ht
    rw [buildTools] at ht
    by_cases hb : 0 < blocked.length
    · rw [if_pos hb] at ht
      by_cases hlen : 0 < (ts.filter fun t => !(blocked.contains t.name)).length
      · rw [if_pos hlen] at ht
        obtain ⟨t0, ht0, hmap⟩ := List.mem_map.1 ht
        have hname : t.name = t0.name := by rw [← hmap]
        have hfilt := List.of_mem_filter ht0
        rw [hname]
        intro hmem
        rw [Bool.not_eq_true'] at hfilt
        have hfilt2 : List.elem t0.name blocked = false := hfilt
        have helem : List.elem t0.name blocked = true := (List.elem_iff).2 hmem
        rw [helem] at hfilt2
        exact absurd hfilt2 (by decide)
      · exact absurd (List.length_pos.2 hne) hlen
    · have hempty : blocked = [] := by
        cases blocked with
        | nil => rfl
        | cons b bs => simp at hb
      rw [hempty]
      exact List.not_mem_nil t.name

theorem blocked_tools_spec_witness :
    "figma" ∈ (processToolUse none exNoBridgeCall
        (processToolUse none exNoBridgeCall
          (processToolUse none exNoBridgeCall exEmptyState exFigmaToolUse).state
          exFigmaToolUse).state exFigmaToolUse).state.blockedTools :=
  blocked_tools_spec.1 none exNoBridgeCall
    (processToolUse none exNoBridgeCall
      (processToolUse none exNoBridgeCall exEmptyState exFigmaToolUse).state
      exFigmaToolUse).state exFigmaToolUse
    (capToolResult (rawToolResult none exNoBridgeCall exFigmaToolUse))
    (by decide) (by decide)

/-- Claim C2, counterexample to the claim as stated: in mock mode (no MCP
bridge configured), after `figma` has been blocked by the duplicate
threshold, `buildTools` still offers the hardcoded mock schema list, which
contains the name `figma` — the blocked name is not absent from every
subsequently offered tool schema. -/
theorem blocked_tool_offered_in_mock_mode :
    "figma" ∈ exBlockedState.blockedTools ∧
    "figma" ∈ (buildTools none exBlockedState.blockedTools).map OfferedTool.name := by decide

/-! ## Claim C3 — the all-blocked escalation rewrite -/

/-- Claim C3 (amended): for every turn in which the completion heuristic
does not fire, the tool requests are non-empty, and all requests target
blocked tools, the escalation rewrite fires: the real response is not
committed, no underlying tool invocation occurs, the run does not complete
on the turn, and the conversation grows by exactly two turns — the
synthetic responder turn asserting the prior phase complete, then the
synthetic originator turn naming the forbidden tool and the expected
alternates. -/
theorem escalation_rewrite_spec (bridgeTools : Option (List McpTool))
    (callTool : String → String → String) (writtenFiles : List String)
    (st : LoopState) (resp : List RespBlock) (stopReason : Option String)
    (hnc : isWorkflowComplete (respFullText resp) stopReason = false)
    (hne : respToolUses resp ≠ [])
    (hall : ∀ tu ∈ respToolUses resp, st.blockedTools.contains tu.name = true) :
    (turnStep bridgeTools callTool writtenFiles st resp stopReason).state.history =
      st.history ++
        [⟨Role.assistant, MsgContent.str syntheticAssistantText⟩,
         ⟨Role.user, MsgContent.str (syntheticUserText st.previousToolCalls)⟩] ∧
    (turnStep bridgeTools callTool writtenFiles st resp stopReason).invocations = 0 ∧
    (turnStep bridgeTools callTool writtenFiles st resp stopReason).completed = false := by
  have hlen : 0 < (respToolUses resp).length := List.length_pos.2 hne
  have hallb : ((respToolUses resp).all fun tu => st.blockedTools.contains tu.name) = true :=
    List.all_eq_true.2 hall
  simp only [turnStep, hnc, hallb, hlen]
  simp

/-- Concrete instantiation of the escalation rewrite: the conversation of
the blocked-figma state grows by exactly the two synthetic turns. -/
theorem escalation_rewrite_spec_witness :
    (turnStep none exNoBridgeCall [] exBlockedFigmaState
        [RespBlock.toolUse ⟨"t2", "get_figma_data", "\x7b\x7d"⟩] none).state.history =
      exBlockedFigmaState.history ++
        [⟨Role.assistant, MsgContent.str syntheticAssistantText⟩,
         ⟨Role.user, MsgContent.str (syntheticUserText exBlockedFigmaState.previousToolCalls)⟩] :=
  (escalation_rewrite_spec none exNoBridgeCall [] exBlockedFigmaState
    [RespBlock.toolUse ⟨"t2", "get_figma_data", "\x7b\x7d"⟩] none
    (by decide) (by decide) (by decide)).1

/-- Claim C3, counterexample to the claim as stated: a turn whose only tool
request targets a blocked tool but whose text asserts workflow completion
ends the run instead of escalating — the conversation does not grow by two
turns and no synthetic turns are spliced in, because the completion check
runs before the escalation check. -/
theorem escalation_preempted_by_completion :
    respToolUses exCompleteResp ≠ [] ∧
    (∀ tu ∈ respToolUses exCompleteResp,
      exBlockedFigmaState.blockedTools.contains tu.name = true) ∧
    (turnStep none exNoBridgeCall [] exBlockedFigmaState exCompleteResp none).completed = true ∧
    (turnStep none exNoBridgeCall [] exBlockedFigmaState exCompleteResp none).state.history =
      exBlockedFigmaState.history := by decide


/-! ## Helper lemmas for the fence scanner -/

theorem scanFences_skip (seen : List String) (l : String) (ls : List String)
    (h : fenceOpen? l = none) :
    scanFences seen (l :: ls) = scanFences (seen ++ [l]) ls := by
  simp only [scanFences, h]

theorem takeWhile_until_close (mid post : List String) (hmid : ∀ l ∈ mid, l ≠ "```") :
    (mid ++ "```" :: post).takeWhile (fun x => x != "```") = mid := by
  induction mid with
  | nil => simp [List.takeWhile_cons]
  | cons a t ih =>
    have ha : (a != "```") = true := by
      simp only [bne_iff_ne, ne_eq]
      exact hmid a (by simp)
    rw [List.cons_append, List.takeWhile_cons, ha]
    simp only [if_true]
    rw [ih fun l hl => hmid l (by simp [hl])]

theorem dropWhile_until_close (mid post : List String) (hmid : ∀ l ∈ mid, l ≠ "```") :
    (mid ++ "```" :: post).dropWhile (fun x => x != "```") = "```" :: post := by
  induction mid with
  | nil => simp [List.dropWhile_cons]
  | cons a t ih =>
    have ha : (a != "```") = true := by
      simp only [bne_iff_ne, ne_eq]
      exact hmid a (by simp)
    rw [List.cons_append, List.dropWhile_cons, ha]
    simp only [if_true]
    exact ih fun l hl => hmid l (by simp [hl])

theorem fenceOpen_append_tag (tag : String) (htag : tag.data.all isWordChar = true) :
    fenceOpen? ("```" ++ tag) = some (tag, "") := by
  have hd : ("```" ++ tag).data = '`' :: '`' :: '`' :: tag.data := by
    rw [String.data_append]
    rfl
  rw [fenceOpen?, hd]
  have htake : tag.data.takeWhile isWordChar = tag.data :=
    List.takeWhile_eq_self_iff.2 (List.all_eq_true.1 htag)
  have hdrop : tag.data.dropWhile isWordChar = [] :=
    List.dropWhile_eq_nil_iff.2 (List.all_eq_true.1 htag)
  simp only [htake, hdrop, List.dropWhile_nil]

theorem scanFences_open (seen : List String) (tag : String) (mid post : List String)
    (htag : tag.data.all isWordChar = true) (hmid : ∀ l ∈ mid, l ≠ "```") :
    scanFences seen (("```" ++ tag) :: (mid ++ "```" :: post)) =
      ⟨seen, tag, "", mid⟩ ::
        scanFences (seen ++ ["```" ++ tag] ++ mid ++ ["```"]) post := by
  have hcont : (mid ++ "```" :: post).contains "```" = true :=
    (List.elem_iff).2 (List.mem_append_right _ (List.mem_cons_self _ _))
  simp only [scanFences, fenceOpen_append_tag tag htag, hcont, if_true,
    takeWhile_until_close mid post hmid, dropWhile_until_close mid post hmid,
    List.tail_cons]

/-! ## Claim C8 — fences without metadata keep their bodies intact -/

/-- Claim C8 (confirmed): a fenced region whose opening line is exactly
the triple backtick plus an optional word-character language tag (no
metadata) is parsed with an empty info-string capture and a body equal to
exactly the lines strictly between the opening and closing fence lines —
the delimiter match never consumes the first body line as metadata. -/
theorem fence_no_metadata_body_exact (pre : List String) (tag : String) (mid post : List String)
    (hpre : ∀ l ∈ pre, fenceOpen? l = none)
    (htag : tag.data.all isWordChar = true)
    (hmid : ∀ l ∈ mid, l ≠ "```") :
    scanFences [] (pre ++ ("```" ++ tag) :: (mid ++ "```" :: post)) =
      ⟨pre, tag, "", mid⟩ ::
        scanFences (pre ++ ["```" ++ tag] ++ mid ++ ["```"]) post := by
  have general : ∀ (pre2 : List String) (seen : List String),
      (∀ l ∈ pre2, fenceOpen? l = none) →
      scanFences seen (pre2 ++ ("```" ++ tag) :: (mid ++ "```" :: post)) =
        ⟨seen ++ pre2, tag, "", mid⟩ ::
          scanFences ((seen ++ pre2) ++ ["```" ++ tag] ++ mid ++ ["```"]) post := by
    intro pre2
    induction pre2 with
    | nil =>
      intro seen _
      simpa using scanFences_open seen tag mid post htag hmid
    | cons a t ih =>
      intro seen hp
      rw [List.cons_append, scanFences_skip seen a _ (hp a (by simp))]
      rw [ih (seen ++ [a]) fun l hl => hp l (by simp [hl])]
      simp [List.append_assoc]
  simpa using general pre [] hpre

theorem fence_no_metadata_body_exact_witness :
    scanFences [] (["intro text"] ++ ("```" ++ "tsx") :: (["const x = 1;"] ++ "```" :: ["after"])) =
      ⟨["intro text"], "tsx", "", ["const x = 1;"]⟩ ::
        scanFences (["intro text"] ++ ["```" ++ "tsx"] ++ ["const x = 1;"] ++ ["```"]) ["after"] :=
  fence_no_metadata_body_exact ["intro text"] "tsx" ["const x = 1;"] ["after"]
    (by decide) (by decide) (by decide)

/-! ## Claim C10 — first-line comment stripping under every strategy -/

/-- Claim C10 (confirmed): whenever the path resolution (whatever strategy
succeeded) yields a path for a non-empty block, the first body line is
stripped from the retained content exactly when it is a single-line
comment whose captured path equals the resolved path; otherwise the whole
body is retained (right-trimmed, with one trailing newline). -/
theorem first_line_comment_strip (rb : RawBlock) (fp : String)
    (hne : (strTrim (joinBodyLines rb.body)).data.isEmpty = false)
    (hres : resolveFilePath rb.info (joinBodyLines rb.body) (textBeforeOf rb.pre) = some fp) :
    (firstLineComment (strTrim ((splitLines (joinBodyLines rb.body)).headD "")) = some fp →
      processBlock rb = some ⟨strTrim fp,
        strTrimEnd (strIntercalate "\n" ((splitLines (joinBodyLines rb.body)).tail)) ++ "\n",
        rb.lang⟩) ∧
    (firstLineComment (strTrim ((splitLines (joinBodyLines rb.body)).headD "")) ≠ some fp →
      processBlock rb = some ⟨strTrim fp, strTrimEnd (joinBodyLines rb.body) ++ "\n",
        rb.lang⟩) := by
  constructor
  · intro hcm
    simp only [processBlock, hne, hres, hcm]
    simp
  · intro hcm
    cases hc : firstLineComment (strTrim ((splitLines (joinBodyLines rb.body)).headD "")) with
    | none =>
      simp only [processBlock, hne, hres, hc]
      rfl
    | some p =>
      have hpf : p ≠ fp := fun he => hcm (by rw [hc, he])
      simp only [processBlock, hne, hres, hc]
      rw [if_neg hpf]
      rfl

theorem first_line_comment_strip_witness :
    processBlock exInfoBlock = some ⟨"A.tsx", "const a = 1;\n", "tsx"⟩ :=
  ((first_line_comment_strip exInfoBlock "A.tsx" (by decide) (by decide)).1
    (by decide)).trans (by decide)

/-! ## Claim C4 — the writer path-containment check -/

/-- Claim C4 (code bug): the writer skips (without aborting the batch) a
blatant parent traversal and writes valid paths, but its containment check
is a string-prefix test on the resolved absolute path (file-writer.ts
line 133).  With sandbox root `/tmp/out`, the proposed path
`../out-evil/x.ts` resolves to `/tmp/out-evil/x.ts`, which does not stay
under the root, yet the prefix check accepts it and the writer writes and
returns the escaping path. -/
theorem traversal_prefix_check_escape :
    writeCodeBlocks
        [⟨"../../etc/evil.sh", "echo pwned\n", "sh"⟩,
         ⟨"Button/Button.tsx", "ok\n", "tsx"⟩,
         ⟨"../out-evil/x.ts", "echo\n", "ts"⟩] "/tmp/out" =
      ["/tmp/out/Button/Button.tsx", "/tmp/out-evil/x.ts"] ∧
    isUnderRoot "/tmp/out" "/tmp/out-evil/x.ts" = false ∧
    isUnderRoot "/tmp/out" "/tmp/out/Button/Button.tsx" = true ∧
    isUnderRoot "/tmp/out" (resolvePath "/tmp/out" "../../etc/evil.sh") = false := by decide

/-! ## Claim C9 — pre-fetch failure handling -/

/-- Claim C9 (amended): once the Figma URL parses, the pre-fetch phase
cannot fail: it returns a context in which each category is fetched
independently, and any category whose underlying tool call throws is
simply left absent. -/
theorem prefetch_call_failures_nonfatal (b : BridgeModel) (figmaUrl : String)
    (fileKey : String) (nodeId : Option String)
    (hurl : parseFigmaUrl figmaUrl = Except.ok (fileKey, nodeId)) :
    prefetchData (some b) figmaUrl =
      Except.ok
        ⟨prefetchCategory b "get_figma_data" (figmaArgs fileKey nodeId) 8000,
         prefetchCategory b "get_naos_component_docs" [] 6000,
         prefetchCategory b "get_naos_design_tokens" [] 4000, none⟩ ∧
    (∀ e, b.call "get_figma_data" (figmaArgs fileKey nodeId) = Except.error e →
      prefetchCategory b "get_figma_data" (figmaArgs fileKey nodeId) 8000 = none) ∧
    (∀ e, b.call "get_naos_component_docs" [] = Except.error e →
      prefetchCategory b "get_naos_component_docs" [] 6000 = none) ∧
    (∀ e, b.call "get_naos_design_tokens" [] = Except.error e →
      prefetchCategory b "get_naos_design_tokens" [] 4000 = none) := by
  refine ⟨by simp [prefetchData, hurl], ?_, ?_, ?_⟩
  · intro e he
    rw [prefetchCategory]
    split
    · rw [he]
    · rfl
  · intro e he
    rw [prefetchCategory]
    split
    · rw [he]
    · rfl
  · intro e he
    rw [prefetchCategory]
    split
    · rw [he]
    · rfl

theorem prefetch_call_failures_nonfatal_witness :
    prefetchData (some exFailBridge) "https://www.figma.com/design/ABC123/My?node-id=1-2" =
      Except.ok ⟨none, none, none, none⟩ := by
  have h := prefetch_call_failures_nonfatal exFailBridge
    "https://www.figma.com/design/ABC123/My?node-id=1-2" "ABC123" (some "1-2") rfl
  rw [h.1, h.2.1 "network down" rfl, h.2.2.1 "network down" rfl, h.2.2.2 "network down" rfl]

/-- Claim C9, counterexample to the claim as stated: with a connected
bridge (the Figma tool discovered and its call succeeding), a Figma URL
from which no file key can be extracted makes the pre-fetch phase throw —
the failure is not logged-and-skipped with the category left absent, it
aborts the run before any category is fetched. -/
theorem prefetch_url_parse_failure_fatal :
    prefetchData (some exOkBridge) "https://example.com/not-figma" =
      Except.error
        ("Could not extract Figma file key from URL: " ++ "https://example.com/not-figma") := rfl

end DesignForge
